import Mathlib

/-!
# Plugin registration of the Windows runner

A verification development for `windows/flutter/generated_plugin_registrant.cc`.

The file holds one function, `RegisterPlugins`, a straight-line sequence of
eleven statements of the form

    XRegisterWithRegistrar(registry->GetRegistrarForPlugin("X"));

Both the registry and the registration functions are external to the file.
`RegisterPlugins` is therefore embedded as a program over an arbitrary monad
whose two primitive operations (the registrar lookup and the call of an
external registration function) are parameters.  The claims are settled in an
instrumented instance of that monad, which threads the state of the host,
records every call in a trace and lets every primitive step fail.
-/

namespace AnimeShin

/-! ## The external symbols -/

/-- The registration functions declared by the eleven included plugin headers. -/
inductive RegistrationFn
  | DynamicColorPluginCApiRegisterWithRegistrar
  | FileSelectorWindowsRegisterWithRegistrar
  | FlutterJsPluginRegisterWithRegistrar
  | FlutterSecureStorageWindowsPluginRegisterWithRegistrar
  | MediaKitLibsWindowsAudioPluginCApiRegisterWithRegistrar
  | MediaKitLibsWindowsVideoPluginCApiRegisterWithRegistrar
  | MediaKitVideoPluginCApiRegisterWithRegistrar
  | ScreenRetrieverWindowsPluginCApiRegisterWithRegistrar
  | SharePlusWindowsPluginCApiRegisterWithRegistrar
  | UrlLauncherWindowsRegisterWithRegistrar
  | WindowManagerPluginRegisterWithRegistrar
  deriving DecidableEq, Repr

open RegistrationFn

/-- The C symbol of a registration function, as it is spelled in the source. -/
def RegistrationFn.symbol : RegistrationFn → String
  | DynamicColorPluginCApiRegisterWithRegistrar =>
      "DynamicColorPluginCApiRegisterWithRegistrar"
  | FileSelectorWindowsRegisterWithRegistrar =>
      "FileSelectorWindowsRegisterWithRegistrar"
  | FlutterJsPluginRegisterWithRegistrar =>
      "FlutterJsPluginRegisterWithRegistrar"
  | FlutterSecureStorageWindowsPluginRegisterWithRegistrar =>
      "FlutterSecureStorageWindowsPluginRegisterWithRegistrar"
  | MediaKitLibsWindowsAudioPluginCApiRegisterWithRegistrar =>
      "MediaKitLibsWindowsAudioPluginCApiRegisterWithRegistrar"
  | MediaKitLibsWindowsVideoPluginCApiRegisterWithRegistrar =>
      "MediaKitLibsWindowsVideoPluginCApiRegisterWithRegistrar"
  | MediaKitVideoPluginCApiRegisterWithRegistrar =>
      "MediaKitVideoPluginCApiRegisterWithRegistrar"
  | ScreenRetrieverWindowsPluginCApiRegisterWithRegistrar =>
      "ScreenRetrieverWindowsPluginCApiRegisterWithRegistrar"
  | SharePlusWindowsPluginCApiRegisterWithRegistrar =>
      "SharePlusWindowsPluginCApiRegisterWithRegistrar"
  | UrlLauncherWindowsRegisterWithRegistrar =>
      "UrlLauncherWindowsRegisterWithRegistrar"
  | WindowManagerPluginRegisterWithRegistrar =>
      "WindowManagerPluginRegisterWithRegistrar"

/-- The header each registration function comes from: the `#include` lines
9 to 19 of the source, in the order of the source. -/
def RegistrationFn.header : RegistrationFn → String
  | DynamicColorPluginCApiRegisterWithRegistrar =>
      "dynamic_color/dynamic_color_plugin_c_api.h"
  | FileSelectorWindowsRegisterWithRegistrar =>
      "file_selector_windows/file_selector_windows.h"
  | FlutterJsPluginRegisterWithRegistrar =>
      "flutter_js/flutter_js_plugin.h"
  | FlutterSecureStorageWindowsPluginRegisterWithRegistrar =>
      "flutter_secure_storage_windows/flutter_secure_storage_windows_plugin.h"
  | MediaKitLibsWindowsAudioPluginCApiRegisterWithRegistrar =>
      "media_kit_libs_windows_audio/media_kit_libs_windows_audio_plugin_c_api.h"
  | MediaKitLibsWindowsVideoPluginCApiRegisterWithRegistrar =>
      "media_kit_libs_windows_video/media_kit_libs_windows_video_plugin_c_api.h"
  | MediaKitVideoPluginCApiRegisterWithRegistrar =>
      "media_kit_video/media_kit_video_plugin_c_api.h"
  | ScreenRetrieverWindowsPluginCApiRegisterWithRegistrar =>
      "screen_retriever_windows/screen_retriever_windows_plugin_c_api.h"
  | SharePlusWindowsPluginCApiRegisterWithRegistrar =>
      "share_plus/share_plus_windows_plugin_c_api.h"
  | UrlLauncherWindowsRegisterWithRegistrar =>
      "url_launcher_windows/url_launcher_windows.h"
  | WindowManagerPluginRegisterWithRegistrar =>
      "window_manager/window_manager_plugin.h"

/-- The plugin library a header belongs to: the directory part of its path. -/
def RegistrationFn.library (f : RegistrationFn) : String :=
  String.mk (f.header.toList.takeWhile (fun c => c != '/'))

/-- The plugin a registration function belongs to: its symbol without the
suffix `RegisterWithRegistrar`. -/
def RegistrationFn.ownName (f : RegistrationFn) : String :=
  String.mk (f.symbol.toList.take (f.symbol.length - "RegisterWithRegistrar".length))

/-- Snake case to camel case on characters: an underscore is dropped and the
character after it, like the first one, is put in upper case. -/
def camelCase (up : Bool) : List Char → List Char
  | [] => []
  | c :: cs =>
      if c = '_' then camelCase true cs
      else (if up then c.toUpper else c) :: camelCase false cs

/-- The name under which a header declares its registration function, by the
naming convention of the plugin tooling: the file name of the header without
`.h`, in camel case, followed by `RegisterWithRegistrar`. -/
def RegistrationFn.declared (f : RegistrationFn) : String :=
  String.mk (camelCase true
    (((f.header.toList.dropWhile (fun c => c != '/')).drop 1).takeWhile (fun c => c != '.')))
    ++ "RegisterWithRegistrar"

/-! ## The program -/

/-- The interface of `flutter::PluginRegistry` that the source uses: the one
method `GetRegistrarForPlugin`, an effectful lookup by plugin name. -/
structure PluginRegistry (m : Type → Type) (Registrar : Type) where
  GetRegistrarForPlugin : String → m Registrar

/-- The source function `RegisterPlugins`, statement by statement.  The first
argument links the external registration functions; the argument of every call
is evaluated (the registrar is looked up) before the call is made. -/
def RegisterPlugins {m : Type → Type} [Monad m] {Registrar : Type}
    (call : RegistrationFn → Registrar → m Unit)
    (registry : PluginRegistry m Registrar) : m Unit := do
  call DynamicColorPluginCApiRegisterWithRegistrar
      (← registry.GetRegistrarForPlugin "DynamicColorPluginCApi")
  call FileSelectorWindowsRegisterWithRegistrar
      (← registry.GetRegistrarForPlugin "FileSelectorWindows")
  call FlutterJsPluginRegisterWithRegistrar
      (← registry.GetRegistrarForPlugin "FlutterJsPlugin")
  call FlutterSecureStorageWindowsPluginRegisterWithRegistrar
      (← registry.GetRegistrarForPlugin "FlutterSecureStorageWindowsPlugin")
  call MediaKitLibsWindowsAudioPluginCApiRegisterWithRegistrar
      (← registry.GetRegistrarForPlugin "MediaKitLibsWindowsAudioPluginCApi")
  call MediaKitLibsWindowsVideoPluginCApiRegisterWithRegistrar
      (← registry.GetRegistrarForPlugin "MediaKitLibsWindowsVideoPluginCApi")
  call MediaKitVideoPluginCApiRegisterWithRegistrar
      (← registry.GetRegistrarForPlugin "MediaKitVideoPluginCApi")
  call ScreenRetrieverWindowsPluginCApiRegisterWithRegistrar
      (← registry.GetRegistrarForPlugin "ScreenRetrieverWindowsPluginCApi")
  call SharePlusWindowsPluginCApiRegisterWithRegistrar
      (← registry.GetRegistrarForPlugin "SharePlusWindowsPluginCApi")
  call UrlLauncherWindowsRegisterWithRegistrar
      (← registry.GetRegistrarForPlugin "UrlLauncherWindows")
  call WindowManagerPluginRegisterWithRegistrar
      (← registry.GetRegistrarForPlugin "WindowManagerPlugin")

/-! ## The instrumented semantics -/

/-- A registrar as it travels through an instrumented run: the value the
registry returned, tagged with the name under which it was asked for. -/
structure Issued (R : Type) where
  origin : String
  value : R

/-- One entry of the trace of a run: a call that left `RegisterPlugins`,
together with what came back. -/
inductive Event (ε R : Type)
  /-- The call `registry->GetRegistrarForPlugin(name)`, which returned
  `result` (or failed). -/
  | getRegistrar (name : String) (result : Except ε R)
  /-- The registration function `f` was called with the registrar `arg`,
  which had been obtained under the name `origin`. -/
  | registerWith (f : RegistrationFn) (origin : String) (arg : R) (result : Except ε Unit)

/-- A call without the values that flow through it. -/
inductive Call
  | getRegistrar (name : String)
  | registerWith (f : RegistrationFn) (origin : String)
  deriving DecidableEq, Repr

/-- The call an event records. -/
def Event.call {ε R : Type} : Event ε R → Call
  | .getRegistrar name _ => .getRegistrar name
  | .registerWith f origin _ _ => .registerWith f origin

/-- The error an event ended with, if it failed. -/
def Event.failure {ε R : Type} : Event ε R → Option ε
  | .getRegistrar _ (.error e) => some e
  | .getRegistrar _ (.ok _) => none
  | .registerWith _ _ _ (.error e) => some e
  | .registerWith _ _ _ (.ok _) => none

/-- The state an instrumented run threads: the state of the host (registry
and plugin libraries) and the calls made so far. -/
structure Config (ε σ R : Type) where
  host : σ
  trace : List (Event ε R)

/-- Computations of the instrumented semantics: state passing with failure.
A failure keeps the state reached, so that the trace up to it can be read. -/
def Exec (ε σ R α : Type) : Type :=
  Config ε σ R → Except ε α × Config ε σ R

/-- Sequencing in `Exec`: the continuation runs only if the first part
succeeded; an error ends the computation. -/
def Exec.bind {ε σ R α β : Type} (x : Exec ε σ R α) (k : α → Exec ε σ R β) :
    Exec ε σ R β :=
  fun c =>
    match x c with
    | (.ok a, c1) => k a c1
    | (.error e, c1) => (.error e, c1)

instance {ε σ R : Type} : Monad (Exec ε σ R) where
  pure a := fun c => (.ok a, c)
  bind := Exec.bind

instance {ε σ R : Type} : LawfulMonad (Exec ε σ R) :=
  LawfulMonad.mk' (Exec ε σ R)
    (by
      intro α x
      funext c
      show Exec.bind x _ c = x c
      unfold Exec.bind
      rcases x c with ⟨_ | _, _⟩ <;> rfl)
    (by intro α β a k; rfl)
    (by
      intro α β γ x k1 k2
      funext c
      show Exec.bind (Exec.bind x k1) k2 c = Exec.bind x (fun a => Exec.bind (k1 a) k2) c
      unfold Exec.bind
      rcases x c with ⟨_ | _, _⟩ <;> rfl)

/-- The environment of `RegisterPlugins`: what the registry answers and what
the plugin libraries do, as functions of the host state.  Every step may
fail with an error of type `ε`. -/
structure Host (ε σ R : Type) where
  GetRegistrarForPlugin : String → σ → Except ε R × σ
  RegisterWithRegistrar : RegistrationFn → R → σ → Except ε Unit × σ

/-- The registry of a host, instrumented: the lookup is recorded and the
registrar returned is tagged with the name asked for. -/
def Host.registry {ε σ R : Type} (H : Host ε σ R) :
    PluginRegistry (Exec ε σ R) (Issued R) where
  GetRegistrarForPlugin name := fun c =>
    match H.GetRegistrarForPlugin name c.host with
    | (.ok r, s) =>
        (.ok ⟨name, r⟩, ⟨s, c.trace ++ [Event.getRegistrar name (.ok r)]⟩)
    | (.error e, s) =>
        (.error e, ⟨s, c.trace ++ [Event.getRegistrar name (.error e)]⟩)

/-- The registration functions of a host, instrumented: the call is recorded
with its argument and its outcome. -/
def Host.call {ε σ R : Type} (H : Host ε σ R)
    (f : RegistrationFn) (r : Issued R) : Exec ε σ R Unit :=
  fun c =>
    match H.RegisterWithRegistrar f r.value c.host with
    | (res, s) => (res, ⟨s, c.trace ++ [Event.registerWith f r.origin r.value res]⟩)

/-- One call of `RegisterPlugins` against the host `H` in state `s`, with an
empty trace to start with. -/
def Host.run {ε σ R : Type} (H : Host ε σ R) (s : σ) :
    Except ε Unit × Config ε σ R :=
  RegisterPlugins H.call H.registry ⟨s, []⟩

/-- A host none of whose steps can fail. -/
structure TotalHost (σ R : Type) where
  GetRegistrarForPlugin : String → σ → R × σ
  RegisterWithRegistrar : RegistrationFn → R → σ → σ

/-- A total host as a host whose error type is empty. -/
def TotalHost.toHost {σ R : Type} (H : TotalHost σ R) : Host Empty σ R where
  GetRegistrarForPlugin name s :=
    ((Except.ok (H.GetRegistrarForPlugin name s).1), (H.GetRegistrarForPlugin name s).2)
  RegisterWithRegistrar f r s := (Except.ok (), H.RegisterWithRegistrar f r s)

/-- The trace of one call of `RegisterPlugins` against a total host. -/
def TotalHost.trace {σ R : Type} (H : TotalHost σ R) (s : σ) : List (Event Empty R) :=
  (H.toHost.run s).2.trace

/-- The host state after one call of `RegisterPlugins` against a total host. -/
def TotalHost.final {σ R : Type} (H : TotalHost σ R) (s : σ) : σ :=
  (H.toHost.run s).2.host

/-! ## Reading a trace -/

/-- The registration functions called, in the order of the calls. -/
def registered {ε R : Type} : List (Event ε R) → List RegistrationFn
  | [] => []
  | .registerWith f _ _ _ :: rest => f :: registered rest
  | .getRegistrar _ _ :: rest => registered rest

/-- The plugin names looked up, in the order of the lookups. -/
def lookedUp {ε R : Type} : List (Event ε R) → List String
  | [] => []
  | .getRegistrar name _ :: rest => name :: lookedUp rest
  | .registerWith _ _ _ _ :: rest => lookedUp rest

/-- The pairs (name, registration function) such that the function was
called with a registrar obtained under the name. -/
def pairing {ε R : Type} : List (Event ε R) → List (String × RegistrationFn)
  | [] => []
  | .registerWith f origin _ _ :: rest => (origin, f) :: pairing rest
  | .getRegistrar _ _ :: rest => pairing rest

/-- The registrars forwarded to registration functions, in order. -/
def forwarded {ε R : Type} : List (Event ε R) → List R
  | [] => []
  | .registerWith _ _ arg _ :: rest => arg :: forwarded rest
  | .getRegistrar _ _ :: rest => forwarded rest

/-- The registrars the registry returned, in order. -/
def returned {ε R : Type} : List (Event ε R) → List R
  | [] => []
  | .getRegistrar _ (.ok r) :: rest => r :: returned rest
  | _ :: rest => returned rest

/-! ## The program as a list of registrations

The proofs go through a second presentation of the program: the list of its
eleven statements, run by a recursive function.  `RegisterPlugins` itself
stays the straight-line definition above; the two are shown equal. -/

/-- The statements of `RegisterPlugins`: the registration function called and
the name looked up for it, in the order of the source. -/
def registrations : List (RegistrationFn × String) :=
  [(DynamicColorPluginCApiRegisterWithRegistrar, "DynamicColorPluginCApi"),
   (FileSelectorWindowsRegisterWithRegistrar, "FileSelectorWindows"),
   (FlutterJsPluginRegisterWithRegistrar, "FlutterJsPlugin"),
   (FlutterSecureStorageWindowsPluginRegisterWithRegistrar, "FlutterSecureStorageWindowsPlugin"),
   (MediaKitLibsWindowsAudioPluginCApiRegisterWithRegistrar, "MediaKitLibsWindowsAudioPluginCApi"),
   (MediaKitLibsWindowsVideoPluginCApiRegisterWithRegistrar, "MediaKitLibsWindowsVideoPluginCApi"),
   (MediaKitVideoPluginCApiRegisterWithRegistrar, "MediaKitVideoPluginCApi"),
   (ScreenRetrieverWindowsPluginCApiRegisterWithRegistrar, "ScreenRetrieverWindowsPluginCApi"),
   (SharePlusWindowsPluginCApiRegisterWithRegistrar, "SharePlusWindowsPluginCApi"),
   (UrlLauncherWindowsRegisterWithRegistrar, "UrlLauncherWindows"),
   (WindowManagerPluginRegisterWithRegistrar, "WindowManagerPlugin")]

/-- Runs the statement `f(registry->GetRegistrarForPlugin(name))` for every
pair of a list, in the order of the list. -/
def registerAll {m : Type → Type} [Monad m] {Registrar : Type}
    (call : RegistrationFn → Registrar → m Unit)
    (registry : PluginRegistry m Registrar) : List (RegistrationFn × String) → m Unit
  | [] => pure ()
  | (f, name) :: rest => do
      call f (← registry.GetRegistrarForPlugin name)
      registerAll call registry rest

/-- The calls a list of statements makes when nothing fails. -/
def schedule : List (RegistrationFn × String) → List Call
  | [] => []
  | (f, name) :: rest => Call.getRegistrar name :: Call.registerWith f name :: schedule rest

/-- The traces a list of statements can leave, with the result they come
with: every statement adds a lookup and the call consuming its result, and
the run ends at the end of the list or at the first step that fails. -/
inductive Shape {ε R : Type} :
    List (RegistrationFn × String) → List (Event ε R) → Except ε Unit → Prop
  | done : Shape [] [] (.ok ())
  | lookupFailed (f : RegistrationFn) (name : String) (rest : List (RegistrationFn × String))
      (e : ε) : Shape ((f, name) :: rest) [.getRegistrar name (.error e)] (.error e)
  | registerFailed (f : RegistrationFn) (name : String)
      (rest : List (RegistrationFn × String)) (r : R) (e : ε) :
      Shape ((f, name) :: rest)
        [.getRegistrar name (.ok r), .registerWith f name r (.error e)] (.error e)
  | step (f : RegistrationFn) (name : String) (rest : List (RegistrationFn × String))
      (r : R) (tr : List (Event ε R)) (res : Except ε Unit) :
      Shape rest tr res →
      Shape ((f, name) :: rest)
        (.getRegistrar name (.ok r) :: .registerWith f name r (.ok ()) :: tr) res

/-- A trace in which every lookup is followed at once by the call that
consumes its result, and by nothing else: lookup, registration, lookup,
registration, and so on, every step succeeding. -/
inductive Interleaved {ε R : Type} : List (Event ε R) → Prop
  | nil : Interleaved []
  | cons (name : String) (r : R) (f : RegistrationFn) (rest : List (Event ε R)) :
      Interleaved rest →
      Interleaved (.getRegistrar name (.ok r) :: .registerWith f name r (.ok ()) :: rest)

/-- The bytes of a string in UTF-8, as numbers. -/
def utf8Bytes (s : String) : List Nat :=
  s.toUTF8.data.toList.map UInt8.toNat

/-- Strict lexicographic order on byte sequences, a proper prefix being
smaller (the order of `strcmp` and of `std::string::compare`). -/
def lexLt : List Nat → List Nat → Bool
  | [], [] => false
  | [], _ :: _ => true
  | _ :: _, [] => false
  | a :: as, b :: bs => decide (a < b) || (a == b && lexLt as bs)

/-- Strictly ascending in the byte-wise order of the names. -/
def Ascending : List String → Bool
  | [] => true
  | [_] => true
  | a :: b :: rest => lexLt (utf8Bytes a) (utf8Bytes b) && Ascending (b :: rest)

/-- The host state after the statements of a list have run, in the order of
the list, against a total host in state `s`. -/
def TotalHost.after {σ R : Type} (H : TotalHost σ R)
    (l : List (RegistrationFn × String)) (s : σ) : σ :=
  (registerAll H.toHost.call H.toHost.registry l ⟨s, []⟩).2.host

/-- One statement against a total host, as a transformation of the host
state: the lookup, then the registration call on what the lookup returned. -/
def TotalHost.step {σ R : Type} (H : TotalHost σ R) (s : σ) (p : RegistrationFn × String) : σ :=
  H.RegisterWithRegistrar p.1 (H.GetRegistrarForPlugin p.2 s).1 (H.GetRegistrarForPlugin p.2 s).2

/-- An event agrees with the host: what it records as the outcome of the
call is what the host answers to that call in some state. -/
def Host.Answers {ε σ R : Type} (H : Host ε σ R) : Event ε R → Prop
  | .getRegistrar name res => ∃ s, (H.GetRegistrarForPlugin name s).1 = res
  | .registerWith f _ arg res => ∃ s, (H.RegisterWithRegistrar f arg s).1 = res

/-! ## Test hosts -/

/-- A host with one state; the registrar for a name is the length of the name. -/
def lengthHost : TotalHost Unit Nat where
  GetRegistrarForPlugin name s := (name.length, s)
  RegisterWithRegistrar _ _ s := s

/-- A host that counts: a lookup adds one to the state, a registration adds
the registrar it is given. -/
def counterHost : TotalHost Nat Nat where
  GetRegistrarForPlugin name s := (name.length, s + 1)
  RegisterWithRegistrar _ r s := s + r

/-- A host that keeps the names of the plugins registered, latest first. -/
def journalHost : TotalHost (List String) String where
  GetRegistrarForPlugin name s := (name, s)
  RegisterWithRegistrar _ r s := r :: s

/-- A host whose registry is broken for one plugin and whose state counts
the steps attempted. -/
def brokenHost : Host String Nat Nat where
  GetRegistrarForPlugin name s :=
    (if name = "MediaKitVideoPluginCApi" then .error "no such plugin" else .ok name.length, s + 1)
  RegisterWithRegistrar _ _ s := (.ok (), s + 1)

/-- A host in which the registration of one plugin fails. -/
def failingHost : Host String Nat Nat where
  GetRegistrarForPlugin name s := (.ok name.length, s + 1)
  RegisterWithRegistrar f _ s :=
    (if f = FlutterJsPluginRegisterWithRegistrar then .error "engine not running" else .ok (),
     s + 1)

/-! ## Lemmas -/

theorem Exec.bind_eq {ε σ R α β : Type} (x : Exec ε σ R α) (k : α → Exec ε σ R β) :
    (x >>= k) = Exec.bind x k := rfl

theorem Exec.pure_eq {ε σ R α : Type} (a : α) (c : Config ε σ R) :
    (pure a : Exec ε σ R α) c = (.ok a, c) := rfl

/-- The straight-line program is the run of its list of statements. -/
theorem RegisterPlugins_eq_registerAll {m : Type → Type} [Monad m] [LawfulMonad m]
    {Registrar : Type} (call : RegistrationFn → Registrar → m Unit)
    (registry : PluginRegistry m Registrar) :
    RegisterPlugins call registry = registerAll call registry registrations := by
  simp [RegisterPlugins, registerAll, registrations]

/-- The trace of a run of a list of statements extends the trace it started
with by a trace of the right shape. -/
theorem registerAll_shape {ε σ R : Type} (H : Host ε σ R)
    (l : List (RegistrationFn × String)) (c : Config ε σ R) :
    ∃ tr, (registerAll H.call H.registry l c).2.trace = c.trace ++ tr ∧
      Shape l tr (registerAll H.call H.registry l c).1 := by
  induction l generalizing c with
  | nil => exact ⟨[], by simp [registerAll, Exec.pure_eq], Shape.done⟩
  | cons p rest ih =>
    obtain ⟨f, name⟩ := p
    simp only [registerAll, Exec.bind_eq, Exec.bind, Host.registry, Host.call]
    rcases hg : H.GetRegistrarForPlugin name c.host with ⟨_ | r, s1⟩
    · exact ⟨_, rfl, Shape.lookupFailed f name rest _⟩
    · simp only []
      rcases hr : H.RegisterWithRegistrar f r s1 with ⟨_ | u, s2⟩
      · simp only [hr]
        exact ⟨_, by simp, Shape.registerFailed f name rest r _⟩
      · simp only [hr]
        obtain ⟨tr, h1, h2⟩ := ih ⟨s2, c.trace ++ [Event.getRegistrar name (.ok r)] ++
          [Event.registerWith f name r (.ok ())]⟩
        refine ⟨_ :: _ :: tr, ?_, Shape.step f name rest r tr _ h2⟩
        simpa using h1

/-- The trace and the result of one call of `RegisterPlugins` have the shape
of the list of its statements. -/
theorem run_shape {ε σ R : Type} (H : Host ε σ R) (s : σ) :
    Shape registrations (H.run s).2.trace (H.run s).1 := by
  obtain ⟨tr, h1, h2⟩ := registerAll_shape H registrations ⟨s, []⟩
  unfold Host.run
  rw [RegisterPlugins_eq_registerAll]
  simp only [List.nil_append] at h1
  rw [h1]
  exact h2

/-- Nothing fails when the error type is empty. -/
theorem result_ok (res : Except Empty Unit) : res = .ok () :=
  match res with
  | .ok () => rfl
  | .error e => nomatch e

/-- What a trace of a run that succeeded looks like. -/
theorem Shape.complete {ε R : Type} {l : List (RegistrationFn × String)}
    {tr : List (Event ε R)} {res : Except ε Unit} (h : Shape l tr res) (hok : res = .ok ()) :
    tr.map Event.call = schedule l ∧ (∀ ev ∈ tr, ev.failure = none) ∧
      registered tr = l.map Prod.fst ∧ lookedUp tr = l.map Prod.snd ∧
      pairing tr = l.map (fun p => (p.2, p.1)) ∧ forwarded tr = returned tr ∧
      Interleaved tr := by
  induction h with
  | done =>
    simp [schedule, registered, lookedUp, pairing, forwarded, returned, Interleaved.nil]
  | lookupFailed f name rest e => cases hok
  | registerFailed f name rest r e => cases hok
  | step f name rest r tr res _ ih =>
    obtain ⟨h1, h2, h3, h4, h5, h6, h7⟩ := ih hok
    refine ⟨?_, ?_, ?_, ?_, ?_, ?_, ?_⟩
    · simp [schedule, Event.call, h1]
    · intro ev hev
      simp only [List.mem_cons] at hev
      rcases hev with rfl | rfl | hev
      · rfl
      · rfl
      · exact h2 ev hev
    · simp [registered, h3]
    · simp [lookedUp, h4]
    · simp [pairing, h5]
    · simp [forwarded, returned, h6]
    · exact Interleaved.cons name r f tr h7

/-- A registrar that reaches a registration function was returned by the
registry, for the name it is tagged with, earlier in the trace. -/
theorem Shape.provenance {ε R : Type} {l : List (RegistrationFn × String)}
    {tr : List (Event ε R)} {res : Except ε Unit} (h : Shape l tr res)
    (f : RegistrationFn) (origin : String) (arg : R) (out : Except ε Unit)
    (hmem : Event.registerWith f origin arg out ∈ tr) :
    (f, origin) ∈ l ∧ ∃ pre post,
      tr = pre ++ Event.getRegistrar origin (.ok arg) :: Event.registerWith f origin arg out :: post := by
  induction h with
  | done => simp at hmem
  | lookupFailed f1 name rest e => simp at hmem
  | registerFailed f1 name rest r e =>
    simp at hmem
    obtain ⟨rfl, rfl, rfl, rfl⟩ := hmem
    exact ⟨by simp, [], [], rfl⟩
  | step f1 name rest r tr res _ ih =>
    simp only [List.mem_cons] at hmem
    rcases hmem with hmem | hmem | hmem
    · cases hmem
    · cases hmem
      exact ⟨by simp, [], tr, rfl⟩
    · obtain ⟨h1, pre, post, h2⟩ := ih hmem
      refine ⟨by simp [h1], Event.getRegistrar name (.ok r) ::
        Event.registerWith f1 name r (.ok ()) :: pre, post, ?_⟩
      simp [h2]

/-- The calls of a trace are an initial segment of the schedule. -/
theorem Shape.calls_initial {ε R : Type} {l : List (RegistrationFn × String)}
    {tr : List (Event ε R)} {res : Except ε Unit} (h : Shape l tr res) :
    tr.map Event.call = (schedule l).take tr.length := by
  induction h with
  | done => rfl
  | lookupFailed f name rest e => simp [schedule, Event.call]
  | registerFailed f name rest r e => simp [schedule, Event.call]
  | step f name rest r tr res _ ih => simp [schedule, Event.call, ih]

/-- A step that fails is the last of the trace, and its error is the result. -/
theorem Shape.failure_last {ε R : Type} {l : List (RegistrationFn × String)}
    {tr : List (Event ε R)} {res : Except ε Unit} (h : Shape l tr res)
    (k : Nat) (ev : Event ε R) (e : ε) (hk : tr[k]? = some ev) (hf : ev.failure = some e) :
    res = .error e ∧ tr.length = k + 1 := by
  induction h generalizing k with
  | done => simp at hk
  | lookupFailed f name rest e1 =>
    match k with
    | 0 =>
      simp at hk
      subst hk
      simp [Event.failure] at hf
      simp [hf]
    | k + 1 => simp at hk
  | registerFailed f name rest r e1 =>
    match k with
    | 0 =>
      simp at hk
      subst hk
      simp [Event.failure] at hf
    | 1 =>
      simp at hk
      subst hk
      simp [Event.failure] at hf
      simp [hf]
    | k + 2 => simp at hk
  | step f name rest r tr res _ ih =>
    match k with
    | 0 =>
      simp at hk
      subst hk
      simp [Event.failure] at hf
    | 1 =>
      simp at hk
      subst hk
      simp [Event.failure] at hf
    | k + 2 =>
      simp at hk
      obtain ⟨h1, h2⟩ := ih k hk
      exact ⟨h1, by simp [h2]⟩

/-- A run that fails has attempted a step that failed with the error of the
run, as its last step; a run that succeeds has run the whole schedule. -/
theorem Shape.result {ε R : Type} {l : List (RegistrationFn × String)}
    {tr : List (Event ε R)} {res : Except ε Unit} (h : Shape l tr res) :
    (∀ e, res = .error e → ∃ ev, tr.getLast? = some ev ∧ ev.failure = some e) ∧
      (res = .ok () → tr.map Event.call = schedule l) := by
  refine ⟨?_, fun hok => (h.complete hok).1⟩
  induction h with
  | done => intro e he; cases he
  | lookupFailed f name rest e1 =>
    intro e he
    cases he
    exact ⟨_, rfl, rfl⟩
  | registerFailed f name rest r e1 =>
    intro e he
    cases he
    exact ⟨_, rfl, rfl⟩
  | step f name rest r tr res hs ih =>
    intro e he
    obtain ⟨ev, h1, h2⟩ := ih e he
    refine ⟨ev, ?_, h2⟩
    cases tr with
    | nil => simp at h1
    | cons a t => simpa [List.getLast?_cons_cons] using h1

/-- The trace of a run against a total host has the shape of a run that
succeeded. -/
theorem TotalHost.trace_shape {σ R : Type} (H : TotalHost σ R) (s : σ) :
    Shape registrations (H.trace s) (.ok ()) := by
  have h := run_shape H.toHost s
  rw [result_ok (H.toHost.run s).1] at h
  exact h

theorem TotalHost.registered_trace {σ R : Type} (H : TotalHost σ R) (s : σ) :
    registered (H.trace s) = registrations.map Prod.fst :=
  ((H.trace_shape s).complete rfl).2.2.1

theorem TotalHost.lookedUp_trace {σ R : Type} (H : TotalHost σ R) (s : σ) :
    lookedUp (H.trace s) = registrations.map Prod.snd :=
  ((H.trace_shape s).complete rfl).2.2.2.1

theorem TotalHost.pairing_trace {σ R : Type} (H : TotalHost σ R) (s : σ) :
    pairing (H.trace s) = registrations.map (fun p => (p.2, p.1)) :=
  ((H.trace_shape s).complete rfl).2.2.2.2.1

theorem TotalHost.calls_trace {σ R : Type} (H : TotalHost σ R) (s : σ) :
    (H.trace s).map Event.call = schedule registrations :=
  ((H.trace_shape s).complete rfl).1

/-- In a list of pairs without a repeated first component, the first
component determines the second. -/
theorem snd_unique {α β : Type} (ps : List (α × β)) (hnd : (ps.map Prod.fst).Nodup)
    (a : α) (b1 b2 : β) (h1 : (a, b1) ∈ ps) (h2 : (a, b2) ∈ ps) : b1 = b2 := by
  induction ps with
  | nil => simp at h1
  | cons p rest ih =>
    simp only [List.map_cons, List.nodup_cons, List.mem_map, not_exists, not_and] at hnd
    simp only [List.mem_cons] at h1 h2
    rcases h1 with h1 | h1 <;> rcases h2 with h2 | h2
    · rw [← h1] at h2
      exact (Prod.mk.inj h2).2.symm
    · exact absurd (by rw [← h1]) (hnd.1 (a, b2) h2)
    · exact absurd (by rw [← h2]) (hnd.1 (a, b1) h1)
    · exact ih hnd.2 h1 h2

/-- In a list of pairs without a repeated second component, the second
component determines the first. -/
theorem fst_unique {α β : Type} (ps : List (α × β)) (hnd : (ps.map Prod.snd).Nodup)
    (b : β) (a1 a2 : α) (h1 : (a1, b) ∈ ps) (h2 : (a2, b) ∈ ps) : a1 = a2 := by
  induction ps with
  | nil => simp at h1
  | cons p rest ih =>
    simp only [List.map_cons, List.nodup_cons, List.mem_map, not_exists, not_and] at hnd
    simp only [List.mem_cons] at h1 h2
    rcases h1 with h1 | h1 <;> rcases h2 with h2 | h2
    · rw [← h1] at h2
      exact (Prod.mk.inj h2).1.symm
    · exact absurd (by rw [← h1]) (hnd.1 (a2, b) h2)
    · exact absurd (by rw [← h2]) (hnd.1 (a1, b) h1)
    · exact ih hnd.2 h1 h2

/-- The host state a list of statements leaves does not depend on the trace
the run starts with: it is the fold of the steps. -/
theorem registerAll_host {σ R : Type} (H : TotalHost σ R)
    (l : List (RegistrationFn × String)) (c : Config Empty σ R) :
    (registerAll H.toHost.call H.toHost.registry l c).2.host = l.foldl H.step c.host := by
  induction l generalizing c with
  | nil => rfl
  | cons p rest ih =>
    obtain ⟨f, name⟩ := p
    exact ih ⟨H.step c.host (f, name),
      c.trace ++ [Event.getRegistrar name (.ok (H.GetRegistrarForPlugin name c.host).1)] ++
        [Event.registerWith f name (H.GetRegistrarForPlugin name c.host).1 (.ok ())]⟩

theorem TotalHost.after_eq_foldl {σ R : Type} (H : TotalHost σ R)
    (l : List (RegistrationFn × String)) (s : σ) : H.after l s = l.foldl H.step s :=
  registerAll_host H l ⟨s, []⟩

theorem TotalHost.final_eq_after {σ R : Type} (H : TotalHost σ R) (s : σ) :
    H.final s = H.after registrations s := by
  unfold TotalHost.final TotalHost.after Host.run
  rw [RegisterPlugins_eq_registerAll]

/-- The events a run adds to the trace record what the host answered. -/
theorem registerAll_sound {ε σ R : Type} (H : Host ε σ R)
    (l : List (RegistrationFn × String)) (c : Config ε σ R) :
    ∀ ev ∈ (registerAll H.call H.registry l c).2.trace, ev ∈ c.trace ∨ H.Answers ev := by
  induction l generalizing c with
  | nil => intro ev hev; exact Or.inl hev
  | cons p rest ih =>
    obtain ⟨f, name⟩ := p
    simp only [registerAll, Exec.bind_eq, Exec.bind, Host.registry, Host.call]
    rcases hg : H.GetRegistrarForPlugin name c.host with ⟨e | r, s1⟩
    · intro ev hev
      simp only [List.mem_append, List.mem_singleton] at hev
      rcases hev with hev | rfl
      · exact Or.inl hev
      · exact Or.inr ⟨c.host, by rw [hg]⟩
    · simp only []
      have hlook : H.Answers (Event.getRegistrar name (.ok r)) := ⟨c.host, by rw [hg]⟩
      have hreg : H.Answers (Event.registerWith f name r (H.RegisterWithRegistrar f r s1).1) :=
        ⟨s1, rfl⟩
      rcases hr : H.RegisterWithRegistrar f r s1 with ⟨e | u, s2⟩
      · simp only [hr]
        rw [hr] at hreg
        intro ev hev
        simp only [List.mem_append, List.mem_singleton] at hev
        rcases hev with (hev | rfl) | rfl
        · exact Or.inl hev
        · exact Or.inr hlook
        · exact Or.inr hreg
      · simp only [hr]
        rw [hr] at hreg
        intro ev hev
        rcases ih _ ev hev with h | h
        · simp only [List.mem_append, List.mem_singleton] at h
          rcases h with (h | rfl) | rfl
          · exact Or.inl h
          · exact Or.inr hlook
          · exact Or.inr hreg
        · exact Or.inr h

/-- Every event of the trace of `RegisterPlugins` records what the host
answered. -/
theorem run_sound {ε σ R : Type} (H : Host ε σ R) (s : σ) :
    ∀ ev ∈ (H.run s).2.trace, H.Answers ev := by
  intro ev hev
  unfold Host.run at hev
  rw [RegisterPlugins_eq_registerAll] at hev
  rcases registerAll_sound H registrations ⟨s, []⟩ ev hev with h | h
  · simp at h
  · exact h

/-! ## Checks of the embedding on concrete inputs -/

theorem ownName_symbol (f : RegistrationFn) :
    f.ownName ++ "RegisterWithRegistrar" = f.symbol := by
  cases f <;> decide

/-- Every registration function is the one its header declares. -/
theorem declared_symbol (f : RegistrationFn) : f.declared = f.symbol := by
  cases f <;> decide

theorem library_eq :
    [DynamicColorPluginCApiRegisterWithRegistrar, FlutterJsPluginRegisterWithRegistrar,
      SharePlusWindowsPluginCApiRegisterWithRegistrar,
      WindowManagerPluginRegisterWithRegistrar].map RegistrationFn.library =
    ["dynamic_color", "flutter_js", "share_plus", "window_manager"] := by decide

theorem lengthHost_forwarded :
    forwarded (lengthHost.trace ()) = [22, 19, 15, 33, 34, 34, 23, 32, 26, 18, 19] := by
  decide

theorem lengthHost_returned :
    returned (lengthHost.trace ()) = [22, 19, 15, 33, 34, 34, 23, 32, 26, 18, 19] := by
  decide

theorem counterHost_final : counterHost.final 0 = 286 := by decide

theorem journalHost_final :
    journalHost.final [] =
      ["WindowManagerPlugin", "UrlLauncherWindows", "SharePlusWindowsPluginCApi",
       "ScreenRetrieverWindowsPluginCApi", "MediaKitVideoPluginCApi",
       "MediaKitLibsWindowsVideoPluginCApi", "MediaKitLibsWindowsAudioPluginCApi",
       "FlutterSecureStorageWindowsPlugin", "FlutterJsPlugin", "FileSelectorWindows",
       "DynamicColorPluginCApi"] := by decide

theorem brokenHost_run :
    (brokenHost.run 0).1 = .error "no such plugin" ∧ (brokenHost.run 0).2.host = 13 ∧
      (brokenHost.run 0).2.trace.map Event.call = (schedule registrations).take 13 :=
  ⟨rfl, rfl, by decide⟩

theorem failingHost_run :
    (failingHost.run 0).1 = .error "engine not running" ∧ (failingHost.run 0).2.host = 6 ∧
      (failingHost.run 0).2.trace.map Event.call =
        [.getRegistrar "DynamicColorPluginCApi",
         .registerWith DynamicColorPluginCApiRegisterWithRegistrar "DynamicColorPluginCApi",
         .getRegistrar "FileSelectorWindows",
         .registerWith FileSelectorWindowsRegisterWithRegistrar "FileSelectorWindows",
         .getRegistrar "FlutterJsPlugin",
         .registerWith FlutterJsPluginRegisterWithRegistrar "FlutterJsPlugin"] :=
  ⟨rfl, rfl, by decide⟩

/-- Two lookups in a row are not an interleaved trace. -/
theorem not_interleaved :
    ¬ Interleaved [(Event.getRegistrar "FileSelectorWindows" (.ok 1) : Event Empty Nat),
      Event.getRegistrar "FlutterJsPlugin" (.ok 2),
      Event.registerWith FileSelectorWindowsRegisterWithRegistrar "FileSelectorWindows" 1 (.ok ()),
      Event.registerWith FlutterJsPluginRegisterWithRegistrar "FlutterJsPlugin" 2 (.ok ())] := by
  intro h
  cases h

/-- The two ways an interleaved trace can be built. -/
theorem Interleaved.inv {ε R : Type} {tr : List (Event ε R)} (h : Interleaved tr) :
    tr = [] ∨ ∃ name r f rest, Interleaved rest ∧
      tr = Event.getRegistrar name (.ok r) :: Event.registerWith f name r (.ok ()) :: rest := by
  cases h with
  | nil => exact Or.inl rfl
  | cons name r f rest h1 => exact Or.inr ⟨name, r, f, rest, h1, rfl⟩

/-- A registrar consumed under another name than it was obtained under is not
an interleaved trace. -/
theorem not_interleaved_crossed :
    ¬ Interleaved [(Event.getRegistrar "FileSelectorWindows" (.ok 1) : Event Empty Nat),
      Event.registerWith FlutterJsPluginRegisterWithRegistrar "FlutterJsPlugin" 1 (.ok ())] := by
  intro h
  rcases h.inv with h1 | ⟨name, r, f, rest, _, h1⟩
  · cases h1
  · simp only [List.cons.injEq, Event.getRegistrar.injEq, Event.registerWith.injEq] at h1
    obtain ⟨⟨h2, _⟩, ⟨_, h3, _⟩, _⟩ := h1
    rw [← h2] at h3
    revert h3
    decide

/-- The byte-wise order is strict and puts a proper prefix first. -/
theorem lexLt_checks :
    lexLt (utf8Bytes "MediaKit") (utf8Bytes "MediaKitVideo") = true ∧
      lexLt (utf8Bytes "MediaKitVideo") (utf8Bytes "MediaKitVideo") = false ∧
      lexLt (utf8Bytes "Window") (utf8Bytes "Url") = false ∧
      Ascending ["FlutterJsPlugin", "FileSelectorWindows"] = false := by decide

/-- The order of the statements matters to a host whose steps do not commute. -/
theorem journalHost_order :
    journalHost.after registrations.reverse [] ≠ journalHost.final [] := by
  rw [TotalHost.final_eq_after, TotalHost.after_eq_foldl, TotalHost.after_eq_foldl]
  decide

/-! ## The claims -/

/-- C1: against every registry, one call of `RegisterPlugins` calls each of
the eleven registration functions exactly once: in the trace of the call every
registration function occurs, and none occurs twice. -/
theorem C1_each_registered_exactly_once {σ R : Type} (H : TotalHost σ R) (s : σ)
    (f : RegistrationFn) : (registered (H.trace s)).count f = 1 := by
  rw [H.registered_trace]
  cases f <;> decide

/-- C2: against every registry, the names looked up are the own names of the
registration functions called, one lookup for each, and a registration
function only ever receives a registrar that the registry returned for the
own name of that function, in the lookup just before the call. -/
theorem C2_registrar_of_own_name {σ R : Type} (H : TotalHost σ R) (s : σ) :
    lookedUp (H.trace s) = (registered (H.trace s)).map RegistrationFn.ownName ∧
      (∀ f : RegistrationFn, (lookedUp (H.trace s)).count f.ownName = 1) ∧
      (∀ (f : RegistrationFn) (origin : String) (arg : R) (out : Except Empty Unit),
        Event.registerWith f origin arg out ∈ H.trace s →
          origin = f.ownName ∧ ∃ pre post, H.trace s =
            pre ++ Event.getRegistrar origin (.ok arg) :: Event.registerWith f origin arg out ::
              post) := by
  refine ⟨?_, ?_, ?_⟩
  · rw [H.lookedUp_trace, H.registered_trace]
    decide
  · intro f
    rw [H.lookedUp_trace]
    cases f <;> decide
  · intro f origin arg out hmem
    obtain ⟨h1, h2⟩ := (H.trace_shape s).provenance f origin arg out hmem
    have hown : ∀ p ∈ registrations, p.2 = p.1.ownName := by decide
    exact ⟨hown _ h1, h2⟩

/-- C2 at the host `lengthHost`. -/
theorem C2_registrar_of_own_name_witness :
    lookedUp (lengthHost.trace ()) =
        (registered (lengthHost.trace ())).map RegistrationFn.ownName ∧
      (∀ f : RegistrationFn, (lookedUp (lengthHost.trace ())).count f.ownName = 1) ∧
      (∀ (f : RegistrationFn) (origin : String) (arg : Nat) (out : Except Empty Unit),
        Event.registerWith f origin arg out ∈ lengthHost.trace () →
          origin = f.ownName ∧ ∃ pre post, lengthHost.trace () =
            pre ++ Event.getRegistrar origin (.ok arg) :: Event.registerWith f origin arg out ::
              post) :=
  C2_registrar_of_own_name lengthHost ()

/-- C3 as stated fails: the trace of a call of `RegisterPlugins` holds neither
ten registration calls nor ten lookups. -/
theorem C3_not_ten :
    (registered (lengthHost.trace ())).length ≠ 10 ∧
      (lookedUp (lengthHost.trace ())).length ≠ 10 := by
  decide

/-- C3, amended: against every registry, the trace of one call of
`RegisterPlugins` holds eleven calls of a registration function and eleven
registrar lookups, and the eleven functions called come from eleven different
plugin libraries. -/
theorem C3_eleven_registrations {σ R : Type} (H : TotalHost σ R) (s : σ) :
    (registered (H.trace s)).length = 11 ∧ (lookedUp (H.trace s)).length = 11 ∧
      ((registered (H.trace s)).map RegistrationFn.library).Nodup := by
  rw [H.registered_trace, H.lookedUp_trace]
  decide

/-- C4: the names looked up are pairwise distinct, and so are the functions
called; every name looked up is paired with exactly one registration function
(the one that receives its registrar), and every function called with exactly
one name: the pairing is a bijection between the names looked up and the
functions called. -/
theorem C4_names_and_functions_in_bijection {σ R : Type} (H : TotalHost σ R) (s : σ) :
    (lookedUp (H.trace s)).Nodup ∧ (registered (H.trace s)).Nodup ∧
      (∀ n f, (n, f) ∈ pairing (H.trace s) →
        n ∈ lookedUp (H.trace s) ∧ f ∈ registered (H.trace s)) ∧
      (∀ n ∈ lookedUp (H.trace s), ∃! f, (n, f) ∈ pairing (H.trace s)) ∧
      (∀ f ∈ registered (H.trace s), ∃! n, (n, f) ∈ pairing (H.trace s)) := by
  have hfst : (pairing (H.trace s)).map Prod.fst = lookedUp (H.trace s) := by
    rw [H.pairing_trace, H.lookedUp_trace]
    rfl
  have hsnd : (pairing (H.trace s)).map Prod.snd = registered (H.trace s) := by
    rw [H.pairing_trace, H.registered_trace]
    rfl
  have hn : (lookedUp (H.trace s)).Nodup := by
    rw [H.lookedUp_trace]
    decide
  have hf : (registered (H.trace s)).Nodup := by
    rw [H.registered_trace]
    decide
  refine ⟨hn, hf, ?_, ?_, ?_⟩
  · intro n f h
    rw [← hfst, ← hsnd]
    exact ⟨List.mem_map.2 ⟨(n, f), h, rfl⟩, List.mem_map.2 ⟨(n, f), h, rfl⟩⟩
  · intro n hmem
    rw [← hfst] at hmem hn
    obtain ⟨⟨n1, f⟩, h1, h2⟩ := List.mem_map.1 hmem
    cases h2
    exact ⟨f, h1, fun f2 h3 => snd_unique _ hn n1 f2 f h3 h1⟩
  · intro f hmem
    rw [← hsnd] at hmem hf
    obtain ⟨⟨n, f1⟩, h1, h2⟩ := List.mem_map.1 hmem
    cases h2
    exact ⟨n, h1, fun n2 h3 => fst_unique _ hf f1 n2 n h3 h1⟩

/-- C4 at the host `journalHost`. -/
theorem C4_names_and_functions_in_bijection_witness :
    (lookedUp (journalHost.trace [])).Nodup ∧ (registered (journalHost.trace [])).Nodup ∧
      (∀ n f, (n, f) ∈ pairing (journalHost.trace []) →
        n ∈ lookedUp (journalHost.trace []) ∧ f ∈ registered (journalHost.trace [])) ∧
      (∀ n ∈ lookedUp (journalHost.trace []), ∃! f, (n, f) ∈ pairing (journalHost.trace [])) ∧
      (∀ f ∈ registered (journalHost.trace []), ∃! n, (n, f) ∈ pairing (journalHost.trace [])) :=
  C4_names_and_functions_in_bijection journalHost []

/-- A lookup that succeeded shows among the registrars returned. -/
theorem mem_returned {ε R : Type} (tr : List (Event ε R)) (name : String) (r : R)
    (h : Event.getRegistrar name (.ok r) ∈ tr) : r ∈ returned tr := by
  induction tr with
  | nil => simp at h
  | cons ev rest ih =>
    simp only [List.mem_cons] at h
    rcases h with rfl | h
    · simp [returned]
    · rcases ev with ⟨n, e | r1⟩ | ⟨f, o, a, out⟩ <;> simp [returned, ih h]

/-- C5: whenever every lookup that `RegisterPlugins` makes returns a registrar
other than null, every registration function it calls receives a registrar
other than null; and whether or not the lookups do, the registrar a function
receives is one the registry returned earlier in the same call, under the name
it is tagged with: `RegisterPlugins` passes nothing of its own making. -/
theorem C5_registrar_not_null {ε σ R : Type} (H : Host ε σ R) (s : σ) (null : R)
    (hpre : ∀ name r, Event.getRegistrar name (.ok r) ∈ (H.run s).2.trace → r ≠ null)
    (f : RegistrationFn) (origin : String) (arg : R) (out : Except ε Unit)
    (hcall : Event.registerWith f origin arg out ∈ (H.run s).2.trace) :
    arg ≠ null ∧ Event.getRegistrar origin (.ok arg) ∈ (H.run s).2.trace := by
  obtain ⟨_, pre, post, h⟩ := (run_shape H s).provenance f origin arg out hcall
  have hmem : Event.getRegistrar origin (.ok arg) ∈ (H.run s).2.trace := by
    rw [h]
    simp
  exact ⟨hpre origin arg hmem, hmem⟩

/-- C5 at the host `lengthHost`, with 0 for the null registrar: the registrar
handed to the window manager plugin is not null. -/
theorem C5_registrar_not_null_witness :
    (19 : Nat) ≠ 0 ∧ Event.getRegistrar "WindowManagerPlugin" (.ok 19) ∈
      (lengthHost.toHost.run ()).2.trace :=
  C5_registrar_not_null lengthHost.toHost () 0
    (fun name r h => by
      have h1 := mem_returned _ name r h
      have h2 : returned (lengthHost.toHost.run ()).2.trace =
        [22, 19, 15, 33, 34, 34, 23, 32, 26, 18, 19] := by decide
      rw [h2] at h1
      intro h0
      rw [h0] at h1
      revert h1
      decide)
    WindowManagerPluginRegisterWithRegistrar "WindowManagerPlugin" 19 (.ok ())
    (by
      have h2 : (lengthHost.toHost.run ()).2.trace.getLast? =
        some (Event.registerWith WindowManagerPluginRegisterWithRegistrar
          "WindowManagerPlugin" 19 (.ok ())) := rfl
      exact List.mem_of_getLast?_eq_some h2)

/-- C6: with every lookup and every registration call a step that may fail,
the calls `RegisterPlugins` makes are an initial segment of its schedule, none
made twice, and each recorded outcome is what the host answered; a step that
fails is the last step made and its error is the result of `RegisterPlugins`
(so every step before it succeeded, once, and nothing after it is looked up or
registered); a failed run ends in the step that failed with its error; and if
no step fails, `RegisterPlugins` succeeds after the whole schedule. -/
theorem C6_first_failure_ends_the_run {ε σ R : Type} (H : Host ε σ R) (s : σ) :
    (H.run s).2.trace.map Event.call =
        (schedule registrations).take (H.run s).2.trace.length ∧
      ((H.run s).2.trace.map Event.call).Nodup ∧
      (∀ ev ∈ (H.run s).2.trace, H.Answers ev) ∧
      (∀ (k : Nat) (ev : Event ε R) (e : ε), (H.run s).2.trace[k]? = some ev →
        ev.failure = some e → (H.run s).1 = .error e ∧ (H.run s).2.trace.length = k + 1) ∧
      (∀ e, (H.run s).1 = .error e →
        ∃ ev, (H.run s).2.trace.getLast? = some ev ∧ ev.failure = some e) ∧
      ((∀ ev ∈ (H.run s).2.trace, ev.failure = none) →
        (H.run s).1 = .ok () ∧ (H.run s).2.trace.map Event.call = schedule registrations) := by
  have hshape := run_shape H s
  have hnd : (schedule registrations).Nodup := by decide
  refine ⟨hshape.calls_initial, ?_, run_sound H s, ?_, hshape.result.1, ?_⟩
  · rw [hshape.calls_initial]
    exact hnd.sublist (List.take_sublist _ _)
  · intro k ev e hk hf
    exact hshape.failure_last k ev e hk hf
  · intro hall
    have hok : (H.run s).1 = .ok () := by
      rcases hres : (H.run s).1 with e | u
      · obtain ⟨ev, h1, h2⟩ := hshape.result.1 e hres
        have h3 := hall ev (List.mem_of_getLast?_eq_some h1)
        rw [h3] at h2
        cases h2
      · rfl
    exact ⟨hok, hshape.result.2 hok⟩

/-- C6 at the host `failingHost`, whose sixth step (the registration of the
JavaScript bridge) fails: the run fails with the error of that step after six
steps. -/
theorem C6_first_failure_ends_the_run_witness :
    (failingHost.run 0).1 = .error "engine not running" ∧
      (failingHost.run 0).2.trace.length = 5 + 1 :=
  (C6_first_failure_ends_the_run failingHost 0).2.2.2.1 5
    (Event.registerWith FlutterJsPluginRegisterWithRegistrar "FlutterJsPlugin" 15
      (.error "engine not running"))
    "engine not running" rfl rfl

/-- C7: if the statements of `RegisterPlugins` (a lookup and the registration
call on its result) commute pairwise as transformations of the host state,
then running them in any permuted order, from any state, leaves the host in
the state in which `RegisterPlugins` leaves it. -/
theorem C7_order_does_not_matter {σ R : Type} (H : TotalHost σ R)
    (hcomm : ∀ p ∈ registrations, ∀ q ∈ registrations, p ≠ q →
      ∀ s, H.after [p, q] s = H.after [q, p] s)
    (l : List (RegistrationFn × String)) (hperm : l.Perm registrations) (s : σ) :
    H.after l s = H.final s := by
  rw [H.final_eq_after, H.after_eq_foldl, H.after_eq_foldl]
  refine hperm.symm.foldl_eq' ?_ s |>.symm
  intro p hp q hq z
  by_cases hpq : p = q
  · rw [hpq]
  · have h := hcomm p hp q hq hpq z
    rw [H.after_eq_foldl, H.after_eq_foldl] at h
    exact h

/-- The statements commute against the host `counterHost`. -/
theorem counterHost_commutes (p q : RegistrationFn × String) (s : Nat) :
    counterHost.after [p, q] s = counterHost.after [q, p] s := by
  rw [TotalHost.after_eq_foldl, TotalHost.after_eq_foldl]
  simp only [List.foldl, TotalHost.step, counterHost]
  omega

/-- C7 at the host `counterHost`: the statements in reverse order, from the
state 5, leave the state `RegisterPlugins` leaves. -/
theorem C7_order_does_not_matter_witness :
    counterHost.after registrations.reverse 5 = counterHost.final 5 :=
  C7_order_does_not_matter counterHost
    (fun p _ q _ _ s => counterHost_commutes p q s)
    registrations.reverse (List.reverse_perm registrations) 5

/-- C8: for any two registries, of whatever types, answers and states, the
two calls of `RegisterPlugins` look up the same names in the same order and
call the same registration functions in the same order, the traces differing
only in the registrars that flow through them; the same holds of a second call
on a registry compared with the first; and the call returns no value. -/
theorem C8_calls_independent_of_registry {σ1 R1 σ2 R2 : Type}
    (H1 : TotalHost σ1 R1) (H2 : TotalHost σ2 R2) (s1 : σ1) (s2 : σ2) :
    lookedUp (H1.trace s1) = lookedUp (H2.trace s2) ∧
      registered (H1.trace s1) = registered (H2.trace s2) ∧
      (H1.trace s1).map Event.call = (H2.trace s2).map Event.call ∧
      (H1.trace (H1.final s1)).map Event.call = (H1.trace s1).map Event.call ∧
      (H1.toHost.run s1).1 = .ok () ∧ (H1.toHost.run (H1.final s1)).1 = .ok () := by
  refine ⟨?_, ?_, ?_, ?_, result_ok _, result_ok _⟩
  · rw [H1.lookedUp_trace, H2.lookedUp_trace]
  · rw [H1.registered_trace, H2.registered_trace]
  · rw [H1.calls_trace, H2.calls_trace]
  · rw [H1.calls_trace, H1.calls_trace]

/-- The names of the statements ascend in byte-wise order. -/
theorem names_ascending : Ascending (registrations.map Prod.snd) = true := by decide

/-- C9: in the trace of one call of `RegisterPlugins` every lookup is followed
at once by the registration call that consumes its result, and the names are
looked up in strictly ascending byte-wise order, `DynamicColorPluginCApi`
first and `WindowManagerPlugin` last. -/
theorem C9_interleaved_and_ascending {σ R : Type} (H : TotalHost σ R) (s : σ) :
    Interleaved (H.trace s) ∧ Ascending (lookedUp (H.trace s)) = true ∧
      (lookedUp (H.trace s)).head? = some "DynamicColorPluginCApi" ∧
      (lookedUp (H.trace s)).getLast? = some "WindowManagerPlugin" := by
  obtain ⟨_, _, _, _, _, _, hi⟩ := (H.trace_shape s).complete rfl
  have hh : (registrations.map Prod.snd).head? = some "DynamicColorPluginCApi" := by decide
  have hl : (registrations.map Prod.snd).getLast? = some "WindowManagerPlugin" := by decide
  rw [H.lookedUp_trace]
  exact ⟨hi, names_ascending, hh, hl⟩

end AnimeShin
